import Mathlib

/-!
Shallow embedding of the NestJS GraphQL blog backend (users, posts, auth
services) and proofs of the specification's claims about it.

The services are translated from `src/users/users.service.ts`,
`src/posts/posts.service.ts` and the auth service source. The relational
store is modelled as a list of rows; TypeORM repository calls
(`findOne`, `findAndCount`, `save`, `remove`) become list operations.
Database-assigned values (uuid primary keys, `CreateDateColumn`) are
passed in as explicit parameters. Thrown Nest exceptions become `Except`
error values carrying the exception kind and message.
-/

/-- The `UserRole` enum from `user.entity.ts` (`user` | `admin`). -/
inductive UserRole
  | user
  | admin
deriving DecidableEq, Repr

/-- Ideal collision-free model of `bcrypt.hash(password, 10)`: a tagged
injective encoding of the plaintext.  The real salt and work factor are
external collaborators; only `hash`/`compare` consistency matters here. -/
def bcryptHash (password : String) : String :=
  "bcrypt2b10" ++ password

/-- Model of `bcrypt.compare(plainText, hashed)`: true exactly when the
hash was produced from the plaintext. -/
def bcryptCompare (plainText hashed : String) : Bool :=
  hashed == bcryptHash plainText

/-- The `users` entity row (`user.entity.ts`).  `password` stores the
bcrypt hash.  `createdAt` is the `CreateDateColumn` timestamp (as `Nat`). -/
structure User where
  id : String
  email : String
  firstName : String
  lastName : String
  password : String
  role : UserRole
  createdAt : Nat
deriving DecidableEq, Repr

/-- The `posts` entity row.  The entity file itself is not among the
provided sources; fields follow the DTOs, the service code and the spec's
data model (title, content, published flag, author foreign id, timestamps). -/
structure Post where
  id : String
  title : String
  content : String
  published : Bool
  authorId : String
  createdAt : Nat
deriving DecidableEq, Repr

/-- Kinds of Nest exceptions raised by the services. -/
inductive ErrKind
  | notFound
  | conflict
  | forbidden
  | unauthorized
  | internal
deriving DecidableEq, Repr

/-- A thrown Nest exception: its kind and its message string. -/
structure Err where
  kind : ErrKind
  message : String
deriving DecidableEq, Repr

/-- `CreateUserInput` DTO (`create-user.input.ts`): role is optional. -/
structure CreateUserInput where
  email : String
  firstName : String
  lastName : String
  password : String
  role : Option UserRole
deriving Repr

/-- `UpdateUserInput` DTO (`update-user.input.ts`): every field optional. -/
structure UpdateUserInput where
  email : Option String
  firstName : Option String
  lastName : Option String
  password : Option String
  role : Option UserRole
deriving Repr

/-- `PaginationInput` DTO: optional page and limit (defaults 1 and 10). -/
structure PaginationInput where
  page : Option Nat
  limit : Option Nat
deriving Repr

/-- `CreatePostInput` DTO (`create-post.input.ts`): title and content are
required, `published` is optional; there is no author field. -/
structure CreatePostInput where
  title : String
  content : String
  published : Option Bool
deriving Repr

/-- `UpdatePostInput` DTO: every field optional. -/
structure UpdatePostInput where
  title : Option String
  content : Option String
  published : Option Bool
deriving Repr

/-- `PostPaginationInput` DTO: optional page and limit (defaults 1 and 10). -/
structure PostPaginationInput where
  page : Option Nat
  limit : Option Nat
deriving Repr

/-- `PostFilterInput` DTO (`post-filter.input.ts`): all fields optional,
declared in source order searchTerm, published, authorId. -/
structure PostFilterInput where
  searchTerm : Option String
  published : Option Bool
  authorId : Option String
deriving Repr

/-- `RegisterInput` DTO consumed by the auth service: the service
destructures `email, password, firstName, lastName, role` from it, so it
carries an optional role alongside the required fields. -/
structure RegisterInput where
  email : String
  firstName : String
  lastName : String
  password : String
  role : Option UserRole
deriving Repr

/-- `LoginInput` DTO: email and password. -/
structure LoginInput where
  email : String
  password : String
deriving Repr

/-- JWT claim set built by `generateTokens`: `{ sub, email, role }`. -/
structure JwtPayload where
  sub : String
  email : String
  role : UserRole
deriving DecidableEq, Repr

/-- Model of `jwtService.sign(payload, opts?)`: the signed token is the
claim set plus the expiry option; the signing key is an external
collaborator, so the token is modelled by what it encodes. -/
structure SignedToken where
  payload : JwtPayload
  expiresIn : Option String
deriving DecidableEq, Repr

/-- `AuthResponse`: the token pair spread together with the user. -/
structure AuthResponse where
  accessToken : SignedToken
  refreshToken : SignedToken
  user : User
deriving Repr

/-- The paginated envelope returned by `UsersService.findAll`. -/
structure PaginatedUsersResponse where
  items : List User
  total : Nat
  page : Nat
  limit : Nat
  totalPages : Nat
  hasNextPage : Bool
  hasPreviousPage : Bool
deriving Repr

/-- The paginated envelope returned by the posts listings. -/
structure PaginatedPostsResponse where
  items : List Post
  total : Nat
  page : Nat
  limit : Nat
  totalPages : Nat
  hasNextPage : Bool
  hasPreviousPage : Bool
deriving DecidableEq, Repr

/-- `Math.ceil(total / limit)` on naturals (exact for `limit ≥ 1`). -/
def mathCeil (total limit : Nat) : Nat :=
  (total + limit - 1) / limit

/-- Whether `needle` occurs at the head of `hay`. -/
def headMatchChars : List Char → List Char → Bool
  | [], _ => true
  | _ :: _, [] => false
  | a :: as, b :: bs => a == b && headMatchChars as bs

/-- Substring containment on character lists. -/
def containsChars (needle : List Char) : List Char → Bool
  | [] => needle.isEmpty
  | c :: rest => headMatchChars needle (c :: rest) || containsChars needle rest

/-- Model of the TypeORM condition `Like('%' + term + '%')` against a
column: case-sensitive substring containment. -/
def likeContains (term column : String) : Bool :=
  containsChars term.toList column.toList

/-- Insert into a list kept in descending `key` order (stable). -/
def insertKeyDesc (key : α → Nat) (x : α) : List α → List α
  | [] => [x]
  | y :: ys => if key y ≤ key x then x :: y :: ys else y :: insertKeyDesc key x ys

/-- Sort a list into descending `key` order: models the repository's
`order: { createdAt: 'DESC' }`. -/
def sortKeyDesc (key : α → Nat) : List α → List α
  | [] => []
  | x :: xs => insertKeyDesc key x (sortKeyDesc key xs)

namespace UsersService

/-- The `NotFoundException` thrown by `UsersService.findOne`. -/
def userNotFound (id : String) : Err :=
  ⟨.notFound, s!"User with ID \x22{id}\x22 not found"⟩

/-- `UsersService.create`: duplicate-email check, bcrypt hash, persist.
`newId`/`now` stand for the DB-assigned uuid and creation timestamp. -/
def create (newId : String) (now : Nat) (input : CreateUserInput)
    (store : List User) : Except Err User × List User :=
  match store.find? (fun u => u.email == input.email) with
  | some _ => (.error ⟨.conflict, "Email already registered"⟩, store)
  | none =>
    let user : User :=
      { id := newId
        email := input.email
        firstName := input.firstName
        lastName := input.lastName
        password := bcryptHash input.password
        role := input.role.getD .user
        createdAt := now }
    (.ok user, store ++ [user])

/-- `UsersService.findAll`: offset pagination over the whole table,
ordered by `createdAt` descending. -/
def findAll (paginationInput : PaginationInput) (store : List User) :
    PaginatedUsersResponse :=
  let page := paginationInput.page.getD 1
  let limit := paginationInput.limit.getD 10
  let skip := (page - 1) * limit
  let sorted := sortKeyDesc (fun u => u.createdAt) store
  let items := (sorted.drop skip).take limit
  let total := store.length
  let totalPages := mathCeil total limit
  { items := items
    total := total
    page := page
    limit := limit
    totalPages := totalPages
    hasNextPage := decide (page < totalPages)
    hasPreviousPage := decide (1 < page) }

/-- `UsersService.findOne`: lookup by id, `NotFoundException` if absent. -/
def findOne (id : String) (store : List User) : Except Err User :=
  match store.find? (fun u => u.id == id) with
  | some u => .ok u
  | none => .error (userNotFound id)

/-- `UsersService.findByEmail`: lookup by email, `null` when absent. -/
def findByEmail (email : String) (store : List User) : Option User :=
  store.find? (fun u => u.email == email)

/-- The duplicate check performed when `updateUserInput.email` is truthy
(non-empty) and differs from the target's current email. -/
def emailChangeConflict (input : UpdateUserInput) (user : User)
    (store : List User) : Bool :=
  match input.email with
  | some e => e != "" && e != user.email
      && (store.find? (fun u => u.email == e)).isSome
  | none => false

/-- `Object.assign(user, updateUserInput)` together with the preceding
re-hash of a truthy password: fields present in the input replace the
target's; a present password is re-hashed only when non-empty. -/
def applyUserUpdate (user : User) (input : UpdateUserInput) : User :=
  { user with
    email := input.email.getD user.email
    firstName := input.firstName.getD user.firstName
    lastName := input.lastName.getD user.lastName
    password :=
      match input.password with
      | some p => if p ≠ "" then bcryptHash p else p
      | none => user.password
    role := input.role.getD user.role }

/-- `UsersService.update`: load target, admin-or-self permission check,
email-uniqueness recheck, admin-only role change, merge, save. -/
def update (id : String) (input : UpdateUserInput) (currentUser : User)
    (store : List User) : Except Err User × List User :=
  match store.find? (fun u => u.id == id) with
  | none => (.error (userNotFound id), store)
  | some user =>
    if currentUser.role ≠ UserRole.admin ∧ currentUser.id ≠ id then
      (.error ⟨.forbidden, "You can only update your own profile"⟩, store)
    else if emailChangeConflict input user store then
      (.error ⟨.conflict, "Email already registered"⟩, store)
    else if input.role.isSome ∧ currentUser.role ≠ UserRole.admin then
      (.error ⟨.forbidden, "Only admins can change user roles"⟩, store)
    else
      let merged := applyUserUpdate user input
      (.ok merged, store.map fun u => if u.id = id then merged else u)

/-- `UsersService.remove`: load target, admin-or-self check, then the
self-deletion guard `currentUser.id === id && currentUser.role !== ADMIN`,
then delete. -/
def remove (id : String) (currentUser : User) (store : List User) :
    Except Err Bool × List User :=
  match store.find? (fun u => u.id == id) with
  | none => (.error (userNotFound id), store)
  | some _ =>
    if currentUser.role ≠ UserRole.admin ∧ currentUser.id ≠ id then
      (.error ⟨.forbidden, "You can only delete your own account"⟩, store)
    else if currentUser.id = id ∧ currentUser.role ≠ UserRole.admin then
      (.error ⟨.forbidden, "You cannot delete your own account"⟩, store)
    else
      (.ok true, store.filter fun u => u.id != id)

end UsersService

namespace PostsService

/-- The `NotFoundException` thrown by `PostsService.findOne`. -/
def postNotFound (id : String) : Err :=
  ⟨.notFound, s!"Post with ID \x22{id}\x22 not found"⟩

/-- Modelled from the spec: the Post entity file (`post.entity.ts`) is not
among the provided sources; per the spec's data model the `published`
column defaults to `false`, applied when `CreatePostInput.published` is
omitted. -/
def publishedColumnDefault : Bool := false

/-- The `where` predicate `PostsService.findAll` builds from the filter:
`published` applied whenever the field is present (`!== undefined`),
`authorId` and `searchTerm` applied only when truthy (present and
non-empty), `searchTerm` as a `Like('%term%')` match against the title. -/
def postsWhere (filterInput : Option PostFilterInput) (p : Post) : Bool :=
  match filterInput with
  | none => true
  | some f =>
    (match f.published with
     | some b => p.published == b
     | none => true)
    && (match f.authorId with
        | some a => if a ≠ "" then p.authorId == a else true
        | none => true)
    && (match f.searchTerm with
        | some s => if s ≠ "" then likeContains s p.title else true
        | none => true)

/-- `PostsService.create`: persists a post attributed to the
authenticated author; `newId`/`now` stand for the DB-assigned uuid and
creation timestamp. -/
def create (newId : String) (now : Nat) (input : CreatePostInput)
    (author : User) (store : List Post) : Except Err Post × List Post :=
  let post : Post :=
    { id := newId
      title := input.title
      content := input.content
      published := input.published.getD publishedColumnDefault
      authorId := author.id
      createdAt := now }
  (.ok post, store ++ [post])

/-- `PostsService.findAll`: conjunctive filter, offset pagination,
`createdAt` descending order; `total` counts all matching rows. -/
def findAll (paginationInput : PostPaginationInput)
    (filterInput : Option PostFilterInput) (store : List Post) :
    PaginatedPostsResponse :=
  let page := paginationInput.page.getD 1
  let limit := paginationInput.limit.getD 10
  let skip := (page - 1) * limit
  let matching := store.filter (postsWhere filterInput)
  let sorted := sortKeyDesc (fun p => p.createdAt) matching
  let items := (sorted.drop skip).take limit
  let total := matching.length
  let totalPages := mathCeil total limit
  { items := items
    total := total
    page := page
    limit := limit
    totalPages := totalPages
    hasNextPage := decide (page < totalPages)
    hasPreviousPage := decide (1 < page) }

/-- `PostsService.findOne`: lookup by id, `NotFoundException` if absent. -/
def findOne (id : String) (store : List Post) : Except Err Post :=
  match store.find? (fun p => p.id == id) with
  | some p => .ok p
  | none => .error (postNotFound id)

/-- `PostsService.findByUser`: pagination fixed to the author predicate. -/
def findByUser (userId : String) (paginationInput : PostPaginationInput)
    (store : List Post) : PaginatedPostsResponse :=
  let page := paginationInput.page.getD 1
  let limit := paginationInput.limit.getD 10
  let skip := (page - 1) * limit
  let matching := store.filter (fun p => p.authorId == userId)
  let sorted := sortKeyDesc (fun p => p.createdAt) matching
  let items := (sorted.drop skip).take limit
  let total := matching.length
  let totalPages := mathCeil total limit
  { items := items
    total := total
    page := page
    limit := limit
    totalPages := totalPages
    hasNextPage := decide (page < totalPages)
    hasPreviousPage := decide (1 < page) }

/-- `Object.assign(post, updatePostInput)`: present fields replace. -/
def applyPostUpdate (post : Post) (input : UpdatePostInput) : Post :=
  { post with
    title := input.title.getD post.title
    content := input.content.getD post.content
    published := input.published.getD post.published }

/-- `PostsService.update`: load, author-or-admin check, merge, save. -/
def update (id : String) (input : UpdatePostInput) (currentUser : User)
    (store : List Post) : Except Err Post × List Post :=
  match store.find? (fun p => p.id == id) with
  | none => (.error (postNotFound id), store)
  | some post =>
    if currentUser.role ≠ UserRole.admin ∧ post.authorId ≠ currentUser.id then
      (.error ⟨.forbidden, "You can only update your own posts"⟩, store)
    else
      let merged := applyPostUpdate post input
      (.ok merged, store.map fun p => if p.id = id then merged else p)

/-- `PostsService.remove`: load, author-or-admin check, delete. -/
def remove (id : String) (currentUser : User) (store : List Post) :
    Except Err Bool × List Post :=
  match store.find? (fun p => p.id == id) with
  | none => (.error (postNotFound id), store)
  | some post =>
    if currentUser.role ≠ UserRole.admin ∧ post.authorId ≠ currentUser.id then
      (.error ⟨.forbidden, "You can only delete your own posts"⟩, store)
    else
      (.ok true, store.filter fun p => p.id != id)

/-- `PostsService.publishPost`: load, author-or-admin check, set
`published := true`, save. -/
def publishPost (id : String) (currentUser : User) (store : List Post) :
    Except Err Post × List Post :=
  match store.find? (fun p => p.id == id) with
  | none => (.error (postNotFound id), store)
  | some post =>
    if currentUser.role ≠ UserRole.admin ∧ post.authorId ≠ currentUser.id then
      (.error ⟨.forbidden, "You can only publish your own posts"⟩, store)
    else
      let merged := { post with published := true }
      (.ok merged, store.map fun p => if p.id = id then merged else p)

/-- `PostsService.unpublishPost`: load, author-or-admin check, set
`published := false`, save. -/
def unpublishPost (id : String) (currentUser : User) (store : List Post) :
    Except Err Post × List Post :=
  match store.find? (fun p => p.id == id) with
  | none => (.error (postNotFound id), store)
  | some post =>
    if currentUser.role ≠ UserRole.admin ∧ post.authorId ≠ currentUser.id then
      (.error ⟨.forbidden, "You can only unpublish your own posts"⟩, store)
    else
      let merged := { post with published := false }
      (.ok merged, store.map fun p => if p.id = id then merged else p)

end PostsService

namespace AuthService

/-- `generateTokens`: signs the claim set `{ sub, email, role }` twice —
the access token with the default expiry, the refresh token with `7d`. -/
def generateTokens (user : User) : SignedToken × SignedToken :=
  let payload : JwtPayload := ⟨user.id, user.email, user.role⟩
  (⟨payload, none⟩, ⟨payload, some "7d"⟩)

/-- `AuthService.register`: duplicate-email check, hash, persist with
`role: role || UserRole.USER`, then issue the token pair. -/
def register (newId : String) (now : Nat) (input : RegisterInput)
    (store : List User) : Except Err AuthResponse × List User :=
  match store.find? (fun u => u.email == input.email) with
  | some _ => (.error ⟨.conflict, "Email already registered"⟩, store)
  | none =>
    let user : User :=
      { id := newId
        email := input.email
        firstName := input.firstName
        lastName := input.lastName
        password := bcryptHash input.password
        role := input.role.getD .user
        createdAt := now }
    let tokens := generateTokens user
    (.ok ⟨tokens.1, tokens.2, user⟩, store ++ [user])

/-- `AuthService.login`: lookup by email (`Unauthorized` if absent),
verify the password (`Unauthorized` with the same message on mismatch),
issue the token pair. -/
def login (input : LoginInput) (store : List User) : Except Err AuthResponse :=
  match store.find? (fun u => u.email == input.email) with
  | none => .error ⟨.unauthorized, "Invalid credentials"⟩
  | some user =>
    if bcryptCompare input.password user.password then
      let tokens := generateTokens user
      .ok ⟨tokens.1, tokens.2, user⟩
    else
      .error ⟨.unauthorized, "Invalid credentials"⟩

/-- `AuthService.validateUser`: lookup by id, `Unauthorized` if absent. -/
def validateUser (userId : String) (store : List User) : Except Err User :=
  match store.find? (fun u => u.id == userId) with
  | some u => .ok u
  | none => .error ⟨.unauthorized, "User not found"⟩

end AuthService

/-- Concrete admin account, shaped like the first seed user. -/
def demoAdmin : User :=
  { id := "1", email := "admin@example.com", firstName := "Admin",
    lastName := "User", password := bcryptHash "admin123",
    role := .admin, createdAt := 0 }

/-- Concrete non-admin account, shaped like the second seed user. -/
def demoUser : User :=
  { id := "2", email := "john@example.com", firstName := "John",
    lastName := "Doe", password := bcryptHash "password123",
    role := .user, createdAt := 1 }

/-- Concrete post authored by `demoUser`. -/
def demoPost : Post :=
  { id := "p1", title := "Getting Started with GraphQL", content := "intro",
    published := true, authorId := "2", createdAt := 1 }

/-- Concrete non-admin account distinct from `demoPost`'s author. -/
def demoStranger : User :=
  { id := "3", email := "jane@example.com", firstName := "Jane",
    lastName := "Smith", password := bcryptHash "password123",
    role := .user, createdAt := 2 }

/-- The filter semantics as claim C4 words them: every *present* field
contributes a conjunct — `published` exact match, `authorId` exact match,
`searchTerm` case-sensitive substring of the title.  To be compared with
`PostsService.postsWhere`, which is translated from the source. -/
def specFilterMatches (f : PostFilterInput) (p : Post) : Bool :=
  (match f.published with
   | some b => p.published == b
   | none => true)
  && (match f.authorId with
      | some a => p.authorId == a
      | none => true)
  && (match f.searchTerm with
      | some s => likeContains s p.title
      | none => true)

/-- The amended filter semantics: `published` contributes a conjunct
whenever present, while `authorId` and `searchTerm` contribute one only
when present *and non-empty* (an empty string imposes no constraint). -/
def specTruthyFilterMatches (f : PostFilterInput) (p : Post) : Bool :=
  (match f.published with
   | some b => p.published == b
   | none => true)
  && (match f.authorId with
      | some a => a == "" || p.authorId == a
      | none => true)
  && (match f.searchTerm with
      | some s => s == "" || likeContains s p.title
      | none => true)

/-- A truthiness-guarded conjunct and its disjunctive form agree. -/
lemma truthyIfEqOr (cond : Bool) (a : String) :
    (if a ≠ "" then cond else true) = (a == "" || cond) := by
  by_cases h : a = "" <;> simp [h]

/-- The where-predicate `findAll` builds agrees pointwise with the
truthiness-aware filter semantics. -/
lemma postsWhere_eq_truthy (f : PostFilterInput) (p : Post) :
    PostsService.postsWhere (some f) p = specTruthyFilterMatches f p := by
  rcases f with ⟨st, pub, aid⟩
  cases st <;> cases pub <;> cases aid <;>
    simp [PostsService.postsWhere, specTruthyFilterMatches, truthyIfEqOr] <;> rfl

/-- Membership is preserved by ordered insertion. -/
lemma mem_insertKeyDesc {α : Type} {key : α → Nat} {x y : α} {l : List α} :
    y ∈ insertKeyDesc key x l ↔ y = x ∨ y ∈ l := by
  induction l with
  | nil => simp [insertKeyDesc]
  | cons z zs ih =>
    simp only [insertKeyDesc]
    split_ifs <;> simp [ih] <;> tauto

/-- `sortKeyDesc` reorders but neither adds nor removes elements. -/
lemma mem_sortKeyDesc {α : Type} {key : α → Nat} {y : α} {l : List α} :
    y ∈ sortKeyDesc key l ↔ y ∈ l := by
  induction l with
  | nil => simp [sortKeyDesc]
  | cons z zs ih => simp [sortKeyDesc, mem_insertKeyDesc, ih]

/-- Claim C8: a created post is attributed to the authenticated author
(`authorId = author.id`; the input has no author field), its `published`
flag defaults to `false` when omitted, and the post is appended to the
store. -/
theorem C8_create_post_author_attribution
    (newId : String) (now : Nat) (input : CreatePostInput) (author : User)
    (store : List Post) :
    ∃ post : Post,
      (PostsService.create newId now input author store).1 = .ok post
      ∧ post.authorId = author.id
      ∧ (input.published = none → post.published = false)
      ∧ (PostsService.create newId now input author store).2 = store ++ [post] := by
  refine ⟨_, rfl, rfl, fun h => ?_, rfl⟩
  simp [h, PostsService.publishedColumnDefault]

/-- Witness for C8 at a concrete input with `published` omitted. -/
theorem C8_create_post_author_attribution_witness :
    ∃ post : Post,
      (PostsService.create "p9" 5 ⟨"T", "C", none⟩ demoUser []).1 = .ok post
      ∧ post.authorId = "2" ∧ post.published = false := by
  obtain ⟨post, h1, h2, h3, _⟩ :=
    C8_create_post_author_attribution "p9" 5 ⟨"T", "C", none⟩ demoUser []
  exact ⟨post, h1, h2.trans rfl, h3 rfl⟩

/-- Claim C9: the public register operation takes an optional
client-supplied role and persists it — `role: role || UserRole.USER` —
so a register input carrying `role = admin` creates an admin, and the
role defaults to `user` exactly when the field is omitted. -/
theorem C9_register_persists_client_role
    (newId : String) (now : Nat) (input : RegisterInput) (store : List User)
    (hfresh : ∀ u ∈ store, u.email ≠ input.email) :
    ∃ resp : AuthResponse,
      (AuthService.register newId now input store).1 = .ok resp
      ∧ resp.user.role = input.role.getD UserRole.user
      ∧ (input.role = some UserRole.admin → resp.user.role = UserRole.admin)
      ∧ (input.role = none → resp.user.role = UserRole.user)
      ∧ (AuthService.register newId now input store).2 = store ++ [resp.user] := by
  have hf : store.find? (fun u => u.email == input.email) = none := by
    rw [List.find?_eq_none]
    intro u hu
    simpa using hfresh u hu
  simp only [AuthService.register, hf]
  exact ⟨_, rfl, rfl, fun h => by simp [h], fun h => by simp [h], rfl⟩

/-- Witness for C9: registering with an explicit admin role on an empty
store creates an admin user. -/
theorem C9_register_persists_client_role_witness :
    ∃ resp : AuthResponse,
      (AuthService.register "9" 3 ⟨"eve@example.com", "Eve", "X", "pw", some .admin⟩ []).1
        = .ok resp
      ∧ resp.user.role = UserRole.admin := by
  obtain ⟨resp, h1, _, h3, _, _⟩ :=
    C9_register_persists_client_role "9" 3
      ⟨"eve@example.com", "Eve", "X", "pw", some .admin⟩ []
      (fun u hu => absurd hu (List.not_mem_nil u))
  exact ⟨resp, h1, h3 rfl⟩

/-- Claim C5: creating a user (Identity Service create or Session Service
register) with an email already present fails with `AlreadyExists`
(ConflictException) and writes no row. -/
theorem C5_duplicate_email_rejected
    (newId : String) (now : Nat) (cinput : CreateUserInput)
    (rinput : RegisterInput) (store : List User) (u : User)
    (hmem : u ∈ store) (hce : u.email = cinput.email)
    (hre : u.email = rinput.email) :
    UsersService.create newId now cinput store
      = (.error ⟨.conflict, "Email already registered"⟩, store)
    ∧ AuthService.register newId now rinput store
      = (.error ⟨.conflict, "Email already registered"⟩, store) := by
  have h1 : (store.find? (fun x => x.email == cinput.email)).isSome := by
    rw [List.find?_isSome]
    exact ⟨u, hmem, by simp [hce]⟩
  have h2 : (store.find? (fun x => x.email == rinput.email)).isSome := by
    rw [List.find?_isSome]
    exact ⟨u, hmem, by simp [hre]⟩
  obtain ⟨v1, hv1⟩ := Option.isSome_iff_exists.mp h1
  obtain ⟨v2, hv2⟩ := Option.isSome_iff_exists.mp h2
  constructor
  · simp [UsersService.create, hv1]
  · simp [AuthService.register, hv2]

/-- Witness for C5 at a concrete store already holding `demoUser`. -/
theorem C5_duplicate_email_rejected_witness :
    UsersService.create "9" 3 ⟨"john@example.com", "J", "D", "pw", none⟩ [demoUser]
      = (.error ⟨.conflict, "Email already registered"⟩, [demoUser])
    ∧ AuthService.register "9" 3 ⟨"john@example.com", "J", "D", "pw", none⟩ [demoUser]
      = (.error ⟨.conflict, "Email already registered"⟩, [demoUser]) :=
  C5_duplicate_email_rejected "9" 3
    ⟨"john@example.com", "J", "D", "pw", none⟩
    ⟨"john@example.com", "J", "D", "pw", none⟩
    [demoUser] demoUser (List.mem_singleton_self _) rfl rfl

/-- Claim C6: login fails with the identical `Unauthorized` error value
(same kind, same message) both for an unknown email and for a wrong
password; with a correct pair it returns a token pair whose payloads
encode the user's id, email and role. -/
theorem C6_login_indistinguishable_failures
    (input : LoginInput) (store : List User) :
    ((∀ u ∈ store, u.email ≠ input.email) →
      AuthService.login input store = .error ⟨.unauthorized, "Invalid credentials"⟩)
    ∧ (∀ u, store.find? (fun x => x.email == input.email) = some u →
        bcryptCompare input.password u.password = false →
        AuthService.login input store = .error ⟨.unauthorized, "Invalid credentials"⟩)
    ∧ (∀ u, store.find? (fun x => x.email == input.email) = some u →
        bcryptCompare input.password u.password = true →
        AuthService.login input store =
          .ok ⟨⟨⟨u.id, u.email, u.role⟩, none⟩, ⟨⟨u.id, u.email, u.role⟩, some "7d"⟩, u⟩) := by
  refine ⟨fun habs => ?_, fun u hu hbad => ?_, fun u hu hgood => ?_⟩
  · have hf : store.find? (fun u => u.email == input.email) = none := by
      rw [List.find?_eq_none]
      intro u hu
      simpa using habs u hu
    simp [AuthService.login, hf]
  · simp [AuthService.login, hu, hbad]
  · simp [AuthService.login, hu, hgood, AuthService.generateTokens]

/-- Witness for C6: unknown email on `[demoUser]`, wrong password for
`demoUser`, and the correct pair, evaluated concretely. -/
theorem C6_login_indistinguishable_failures_witness :
    AuthService.login ⟨"nobody@example.com", "pw"⟩ [demoUser]
      = .error ⟨.unauthorized, "Invalid credentials"⟩
    ∧ AuthService.login ⟨"john@example.com", "wrong"⟩ [demoUser]
      = .error ⟨.unauthorized, "Invalid credentials"⟩
    ∧ AuthService.login ⟨"john@example.com", "password123"⟩ [demoUser]
      = .ok ⟨⟨⟨"2", "john@example.com", .user⟩, none⟩,
             ⟨⟨"2", "john@example.com", .user⟩, some "7d"⟩, demoUser⟩ := by
  refine ⟨?_, ?_, ?_⟩
  · exact (C6_login_indistinguishable_failures ⟨"nobody@example.com", "pw"⟩ [demoUser]).1
      (by intro u hu; rw [List.mem_singleton] at hu; subst hu; decide)
  · exact (C6_login_indistinguishable_failures ⟨"john@example.com", "wrong"⟩ [demoUser]).2.1
      demoUser rfl rfl
  · exact (C6_login_indistinguishable_failures
      ⟨"john@example.com", "password123"⟩ [demoUser]).2.2 demoUser rfl rfl

/-- Counterexample to claim C2: remove on one's own account does not fail
for an admin.  With the store holding only `demoAdmin` (id "1", role
admin), `remove("1", demoAdmin)` succeeds and deletes the row, although
the claim says a self-targeting remove fails with `Forbidden` regardless
of role.  The guard in the source is
`currentUser.id === id && currentUser.role !== ADMIN`, which an admin
passes. -/
theorem C2_counterexample_admin_self_delete_succeeds :
    demoAdmin.id = "1" ∧ demoAdmin.role = UserRole.admin
    ∧ UsersService.remove "1" demoAdmin [demoAdmin] = (.ok true, []) :=
  ⟨rfl, rfl, rfl⟩

/-- Claim C2 amended: for an existing target, remove succeeds exactly
when the acting user is an admin — an admin may delete any account,
their own included; every non-admin attempt (own account or another's)
fails with `Forbidden` and leaves the store unchanged. -/
theorem C2_remove_admin_only
    (id : String) (cu : User) (store : List User) (u : User)
    (hfind : store.find? (fun x => x.id == id) = some u) :
    ((∃ v, (UsersService.remove id cu store).1 = .ok v) ↔ cu.role = UserRole.admin)
    ∧ (cu.role ≠ UserRole.admin →
        ∃ m, UsersService.remove id cu store = (.error ⟨.forbidden, m⟩, store)) := by
  by_cases h : cu.role = UserRole.admin
  · constructor
    · refine ⟨fun _ => h, fun _ => ⟨true, ?_⟩⟩
      simp [UsersService.remove, hfind, h]
    · intro hc
      exact absurd h hc
  · constructor
    · refine ⟨fun ⟨v, hv⟩ => ?_, fun hc => absurd hc h⟩
      by_cases h2 : cu.id = id <;> simp [UsersService.remove, hfind, h, h2] at hv
    · intro _
      by_cases h2 : cu.id = id
      · exact ⟨"You cannot delete your own account",
          by simp [UsersService.remove, hfind, h, h2]⟩
      · exact ⟨"You can only delete your own account",
          by simp [UsersService.remove, hfind, h, h2]⟩

/-- Witness for the amended C2: a non-admin self-delete is rejected with
`Forbidden` and the store is unchanged; an admin delete succeeds. -/
theorem C2_remove_admin_only_witness :
    (∃ m, UsersService.remove "2" demoUser [demoUser]
        = (.error ⟨.forbidden, m⟩, [demoUser]))
    ∧ (∃ v, (UsersService.remove "2" demoAdmin [demoAdmin, demoUser]).1 = .ok v) :=
  ⟨(C2_remove_admin_only "2" demoUser [demoUser] demoUser rfl).2 (by decide),
   (C2_remove_admin_only "2" demoAdmin [demoAdmin, demoUser] demoUser rfl).1.mpr rfl⟩

/-- Claim C10: in `PostsService.findAll` the `authorId` and `searchTerm`
fields are applied only when truthy — an empty string behaves exactly as
an absent field — while `published = false`, being checked against
`undefined` rather than truthiness, is applied as an exact match. -/
theorem C10_truthy_filter_fields
    (pag : PostPaginationInput) (store : List Post)
    (st : Option String) (pub : Option Bool) (aid : Option String) :
    PostsService.findAll pag (some ⟨st, pub, some ""⟩) store
      = PostsService.findAll pag (some ⟨st, pub, none⟩) store
    ∧ PostsService.findAll pag (some ⟨some "", pub, aid⟩) store
      = PostsService.findAll pag (some ⟨none, pub, aid⟩) store
    ∧ (∀ p : Post, PostsService.postsWhere (some ⟨none, some false, none⟩) p
        = (p.published == false)) := by
  refine ⟨?_, ?_, fun p => ?_⟩
  · have e : PostsService.postsWhere (some ⟨st, pub, some ""⟩)
        = PostsService.postsWhere (some ⟨st, pub, none⟩) :=
      funext fun p => by simp [PostsService.postsWhere]
    simp only [PostsService.findAll, e]
  · have e : PostsService.postsWhere (some ⟨some "", pub, aid⟩)
        = PostsService.postsWhere (some ⟨none, pub, aid⟩) :=
      funext fun p => by simp [PostsService.postsWhere]
    simp only [PostsService.findAll, e]
  · simp [PostsService.postsWhere]

/-- Claim C1: for an existing post, each of the four mutating operations
(update, remove, publishPost, unpublishPost) succeeds exactly when the
acting user is an admin or the post's author; otherwise it fails with
`Forbidden` and the store is unchanged. -/
theorem C1_post_mutations_author_or_admin
    (store : List Post) (id : String) (post : Post) (cu : User)
    (input : UpdatePostInput)
    (hfind : store.find? (fun p => p.id == id) = some post) :
    (((∃ v, (PostsService.update id input cu store).1 = .ok v)
        ↔ (cu.role = UserRole.admin ∨ post.authorId = cu.id))
      ∧ (¬(cu.role = UserRole.admin ∨ post.authorId = cu.id) →
          PostsService.update id input cu store
            = (.error ⟨.forbidden, "You can only update your own posts"⟩, store)))
    ∧ (((∃ v, (PostsService.remove id cu store).1 = .ok v)
        ↔ (cu.role = UserRole.admin ∨ post.authorId = cu.id))
      ∧ (¬(cu.role = UserRole.admin ∨ post.authorId = cu.id) →
          PostsService.remove id cu store
            = (.error ⟨.forbidden, "You can only delete your own posts"⟩, store)))
    ∧ (((∃ v, (PostsService.publishPost id cu store).1 = .ok v)
        ↔ (cu.role = UserRole.admin ∨ post.authorId = cu.id))
      ∧ (¬(cu.role = UserRole.admin ∨ post.authorId = cu.id) →
          PostsService.publishPost id cu store
            = (.error ⟨.forbidden, "You can only publish your own posts"⟩, store)))
    ∧ (((∃ v, (PostsService.unpublishPost id cu store).1 = .ok v)
        ↔ (cu.role = UserRole.admin ∨ post.authorId = cu.id))
      ∧ (¬(cu.role = UserRole.admin ∨ post.authorId = cu.id) →
          PostsService.unpublishPost id cu store
            = (.error ⟨.forbidden, "You can only unpublish your own posts"⟩, store))) := by
  refine ⟨⟨⟨?_, ?_⟩, ?_⟩, ⟨⟨?_, ?_⟩, ?_⟩, ⟨⟨?_, ?_⟩, ?_⟩, ⟨⟨?_, ?_⟩, ?_⟩⟩
  · rintro ⟨v, hv⟩
    by_contra hok
    have h1 : cu.role ≠ UserRole.admin := fun hh => hok (Or.inl hh)
    have h2 : post.authorId ≠ cu.id := fun hh => hok (Or.inr hh)
    simp [PostsService.update, hfind, h1, h2] at hv
  · rintro (h | h) <;>
      exact ⟨PostsService.applyPostUpdate post input,
        by simp [PostsService.update, hfind, h]⟩
  · intro hok
    have h1 : cu.role ≠ UserRole.admin := fun hh => hok (Or.inl hh)
    have h2 : post.authorId ≠ cu.id := fun hh => hok (Or.inr hh)
    simp [PostsService.update, hfind, h1, h2]
  · rintro ⟨v, hv⟩
    by_contra hok
    have h1 : cu.role ≠ UserRole.admin := fun hh => hok (Or.inl hh)
    have h2 : post.authorId ≠ cu.id := fun hh => hok (Or.inr hh)
    simp [PostsService.remove, hfind, h1, h2] at hv
  · rintro (h | h) <;>
      exact ⟨true, by simp [PostsService.remove, hfind, h]⟩
  · intro hok
    have h1 : cu.role ≠ UserRole.admin := fun hh => hok (Or.inl hh)
    have h2 : post.authorId ≠ cu.id := fun hh => hok (Or.inr hh)
    simp [PostsService.remove, hfind, h1, h2]
  · rintro ⟨v, hv⟩
    by_contra hok
    have h1 : cu.role ≠ UserRole.admin := fun hh => hok (Or.inl hh)
    have h2 : post.authorId ≠ cu.id := fun hh => hok (Or.inr hh)
    simp [PostsService.publishPost, hfind, h1, h2] at hv
  · rintro (h | h) <;>
      exact ⟨{ post with published := true },
        by simp [PostsService.publishPost, hfind, h]⟩
  · intro hok
    have h1 : cu.role ≠ UserRole.admin := fun hh => hok (Or.inl hh)
    have h2 : post.authorId ≠ cu.id := fun hh => hok (Or.inr hh)
    simp [PostsService.publishPost, hfind, h1, h2]
  · rintro ⟨v, hv⟩
    by_contra hok
    have h1 : cu.role ≠ UserRole.admin := fun hh => hok (Or.inl hh)
    have h2 : post.authorId ≠ cu.id := fun hh => hok (Or.inr hh)
    simp [PostsService.unpublishPost, hfind, h1, h2] at hv
  · rintro (h | h) <;>
      exact ⟨{ post with published := false },
        by simp [PostsService.unpublishPost, hfind, h]⟩
  · intro hok
    have h1 : cu.role ≠ UserRole.admin := fun hh => hok (Or.inl hh)
    have h2 : post.authorId ≠ cu.id := fun hh => hok (Or.inr hh)
    simp [PostsService.unpublishPost, hfind, h1, h2]

/-- Claim C7: read-check-then-write — whenever a mutating operation
returns an error (in particular `NotFound`, `Forbidden` or
`AlreadyExists`), the store is exactly what it was before the call: every
check precedes the write, so a rejected operation performs no partial
mutation. -/
theorem C7_no_partial_mutation_on_rejection :
    (∀ (newId : String) (now : Nat) (input : CreateUserInput)
        (store : List User) (e : Err),
      (UsersService.create newId now input store).1 = .error e →
        (UsersService.create newId now input store).2 = store)
    ∧ (∀ (id : String) (input : UpdateUserInput) (cu : User)
        (store : List User) (e : Err),
      (UsersService.update id input cu store).1 = .error e →
        (UsersService.update id input cu store).2 = store)
    ∧ (∀ (id : String) (cu : User) (store : List User) (e : Err),
      (UsersService.remove id cu store).1 = .error e →
        (UsersService.remove id cu store).2 = store)
    ∧ (∀ (id : String) (input : UpdatePostInput) (cu : User)
        (store : List Post) (e : Err),
      (PostsService.update id input cu store).1 = .error e →
        (PostsService.update id input cu store).2 = store)
    ∧ (∀ (id : String) (cu : User) (store : List Post) (e : Err),
      (PostsService.remove id cu store).1 = .error e →
        (PostsService.remove id cu store).2 = store)
    ∧ (∀ (id : String) (cu : User) (store : List Post) (e : Err),
      (PostsService.publishPost id cu store).1 = .error e →
        (PostsService.publishPost id cu store).2 = store)
    ∧ (∀ (id : String) (cu : User) (store : List Post) (e : Err),
      (PostsService.unpublishPost id cu store).1 = .error e →
        (PostsService.unpublishPost id cu store).2 = store) := by
  refine ⟨?_, ?_, ?_, ?_, ?_, ?_, ?_⟩
  · intro newId now input store e h
    unfold UsersService.create at h ⊢
    cases hf : store.find? (fun u => u.email == input.email) with
    | none => simp [hf] at h
    | some u => simp [hf]
  · intro id input cu store e h
    unfold UsersService.update at h ⊢
    cases hf : store.find? (fun u => u.id == id) with
    | none => simp [hf]
    | some user =>
      simp only [hf] at h ⊢
      split_ifs at h ⊢ <;> simp_all
  · intro id cu store e h
    unfold UsersService.remove at h ⊢
    cases hf : store.find? (fun u => u.id == id) with
    | none => simp [hf]
    | some user =>
      simp only [hf] at h ⊢
      split_ifs at h ⊢ <;> simp_all
  · intro id input cu store e h
    unfold PostsService.update at h ⊢
    cases hf : store.find? (fun p => p.id == id) with
    | none => simp [hf]
    | some post =>
      simp only [hf] at h ⊢
      split_ifs at h ⊢ <;> simp_all
  · intro id cu store e h
    unfold PostsService.remove at h ⊢
    cases hf : store.find? (fun p => p.id == id) with
    | none => simp [hf]
    | some post =>
      simp only [hf] at h ⊢
      split_ifs at h ⊢ <;> simp_all
  · intro id cu store e h
    unfold PostsService.publishPost at h ⊢
    cases hf : store.find? (fun p => p.id == id) with
    | none => simp [hf]
    | some post =>
      simp only [hf] at h ⊢
      split_ifs at h ⊢ <;> simp_all
  · intro id cu store e h
    unfold PostsService.unpublishPost at h ⊢
    cases hf : store.find? (fun p => p.id == id) with
    | none => simp [hf]
    | some post =>
      simp only [hf] at h ⊢
      split_ifs at h ⊢ <;> simp_all

/-- Witness for C7: a non-admin deleting another account is rejected and
the store stays intact. -/
theorem C7_no_partial_mutation_on_rejection_witness :
    (UsersService.remove "1" demoUser [demoAdmin]).2 = [demoAdmin] :=
  C7_no_partial_mutation_on_rejection.2.2.1 "1" demoUser [demoAdmin]
    ⟨.forbidden, "You can only delete your own account"⟩ rfl

/-- Claim C3: in every paginated envelope (users or posts) with effective
limit `L ≥ 1` and page `p ≥ 1`: `totalPages = ⌈total / L⌉` (stated both
through `Nat`'s ceiling division and through its Galois characterisation),
`hasNextPage = (p < totalPages)`, `hasPreviousPage = (p > 1)`, and at most
`L` items are returned. -/
theorem C3_pagination_envelope
    (upag : PaginationInput) (ustore : List User)
    (ppag : PostPaginationInput) (pfilter : Option PostFilterInput)
    (pstore : List Post)
    (hul : 1 ≤ upag.limit.getD 10) (hup : 1 ≤ upag.page.getD 1)
    (hpl : 1 ≤ ppag.limit.getD 10) (hpp : 1 ≤ ppag.page.getD 1) :
    (∀ r, r = UsersService.findAll upag ustore →
      r.totalPages = r.total ⌈/⌉ r.limit
      ∧ (∀ n, r.totalPages ≤ n ↔ r.total ≤ r.limit * n)
      ∧ r.hasNextPage = decide (r.page < r.totalPages)
      ∧ r.hasPreviousPage = decide (1 < r.page)
      ∧ r.items.length ≤ r.limit)
    ∧ (∀ r, r = PostsService.findAll ppag pfilter pstore →
      r.totalPages = r.total ⌈/⌉ r.limit
      ∧ (∀ n, r.totalPages ≤ n ↔ r.total ≤ r.limit * n)
      ∧ r.hasNextPage = decide (r.page < r.totalPages)
      ∧ r.hasPreviousPage = decide (1 < r.page)
      ∧ r.items.length ≤ r.limit) := by
  constructor
  · intro r hr
    subst hr
    refine ⟨rfl, fun n => ?_, rfl, rfl, ?_⟩
    · have hpos : 0 < upag.limit.getD 10 := hul
      have hkey : ustore.length ⌈/⌉ upag.limit.getD 10 ≤ n
          ↔ ustore.length ≤ upag.limit.getD 10 * n := ceilDiv_le_iff_le_mul hpos
      simpa [UsersService.findAll, mathCeil,
        ← Nat.ceilDiv_eq_add_pred_div] using hkey
    · exact List.length_take_le _ _
  · intro r hr
    subst hr
    refine ⟨rfl, fun n => ?_, rfl, rfl, ?_⟩
    · have hpos : 0 < ppag.limit.getD 10 := hpl
      have hkey : (pstore.filter (PostsService.postsWhere pfilter)).length
            ⌈/⌉ ppag.limit.getD 10 ≤ n
          ↔ (pstore.filter (PostsService.postsWhere pfilter)).length
            ≤ ppag.limit.getD 10 * n := ceilDiv_le_iff_le_mul hpos
      simpa [PostsService.findAll, mathCeil,
        ← Nat.ceilDiv_eq_add_pred_div] using hkey
    · exact List.length_take_le _ _

/-- Witness for C3 at a concrete two-user store with limit 1, page 2. -/
theorem C3_pagination_envelope_witness :
    (UsersService.findAll ⟨some 2, some 1⟩ [demoAdmin, demoUser]).totalPages
      = (UsersService.findAll ⟨some 2, some 1⟩ [demoAdmin, demoUser]).total
        ⌈/⌉ (UsersService.findAll ⟨some 2, some 1⟩ [demoAdmin, demoUser]).limit
    ∧ (UsersService.findAll ⟨some 2, some 1⟩ [demoAdmin, demoUser]).items.length
      ≤ (UsersService.findAll ⟨some 2, some 1⟩ [demoAdmin, demoUser]).limit := by
  have h := C3_pagination_envelope ⟨some 2, some 1⟩ [demoAdmin, demoUser]
    ⟨some 1, some 10⟩ none [demoPost]
    (by decide) (by decide) (by decide) (by decide)
  exact ⟨(h.1 _ rfl).1, (h.1 _ rfl).2.2.2.2⟩

/-- Witness for C1: on `[demoPost]`, publish by the author succeeds,
publish by a different non-admin is rejected with `Forbidden` and an
unchanged store. -/
theorem C1_post_mutations_author_or_admin_witness :
    (∃ v, (PostsService.publishPost "p1" demoUser [demoPost]).1 = .ok v)
    ∧ PostsService.publishPost "p1" demoStranger [demoPost]
        = (.error ⟨.forbidden, "You can only publish your own posts"⟩, [demoPost]) :=
  ⟨(C1_post_mutations_author_or_admin [demoPost] "p1" demoPost demoUser
      ⟨none, none, none⟩ rfl).2.2.1.1.mpr (Or.inr rfl),
   (C1_post_mutations_author_or_admin [demoPost] "p1" demoPost demoStranger
      ⟨none, none, none⟩ rfl).2.2.1.2 (by decide)⟩

/-- Counterexample to claim C4: the claim applies every *present* filter
field, but the source guards `authorId` (and `searchTerm`) with a
truthiness check, so a present-but-empty `authorId` imposes no
constraint.  With the table `[demoPost]` (whose `authorId` is `"2"`) and
the filter `{authorId: ""}`, the claim's conjunction matches nothing, yet
the listing returns `demoPost`. -/
theorem C4_counterexample_empty_authorId :
    (PostsService.findAll ⟨some 1, some 10⟩
        (some ⟨none, none, some ""⟩) [demoPost]).items = [demoPost]
    ∧ demoPost.authorId ≠ ""
    ∧ specFilterMatches ⟨none, none, some ""⟩ demoPost = false := by decide

/-- Claim C4 amended: listing returns exactly the posts satisfying the
conjunction of the filter fields, where `published` is applied whenever
present and `authorId`/`searchTerm` are applied only when present and
non-empty: the where-predicate coincides with that conjunction, `total`
counts exactly the matching posts, and every returned item is a matching
table row. -/
theorem C4_filter_conjunction
    (pag : PostPaginationInput) (f : PostFilterInput) (store : List Post) :
    (∀ p : Post, PostsService.postsWhere (some f) p = specTruthyFilterMatches f p)
    ∧ (PostsService.findAll pag (some f) store).total
        = (store.filter fun p => specTruthyFilterMatches f p).length
    ∧ (∀ p : Post, p ∈ (PostsService.findAll pag (some f) store).items →
        p ∈ store ∧ specTruthyFilterMatches f p = true) := by
  have hfe : store.filter (PostsService.postsWhere (some f))
      = store.filter fun p => specTruthyFilterMatches f p :=
    List.filter_congr fun p _ => postsWhere_eq_truthy f p
  refine ⟨postsWhere_eq_truthy f, ?_, ?_⟩
  · simp [PostsService.findAll, hfe]
  · intro p hp
    simp only [PostsService.findAll] at hp
    have h1 := List.mem_of_mem_take hp
    have h2 := List.mem_of_mem_drop h1
    rw [mem_sortKeyDesc, List.mem_filter] at h2
    exact ⟨h2.1, (postsWhere_eq_truthy f p) ▸ h2.2⟩

/-- Witness for the amended C4: the post returned by an unconstrained
listing of `[demoPost]` is a matching table row. -/
theorem C4_filter_conjunction_witness :
    demoPost ∈ [demoPost]
    ∧ specTruthyFilterMatches ⟨none, none, none⟩ demoPost = true :=
  (C4_filter_conjunction ⟨some 1, some 10⟩ ⟨none, none, none⟩ [demoPost]).2.2
    demoPost (by decide)
